import Mathlib

/-!
A shallow embedding of four Android test-maintenance command-line tools
(`count_loc.py`, `run_tests.py`, `find_ui_tests.py`, `sync_ui_tests.py`)
together with proofs about the behaviour their specification describes.
Python strings are modelled as `String` or `List Char` (with the ASCII
fragment of the `\w` character class), Python integers as `Int`, and an
uncaught exception as the `none` value of an `Option` result.  Library
string functions that Lean defines by well-founded recursion are replaced
by structurally recursive equivalents so every definition evaluates.
-/

namespace AndroidTools

/-- Characters removed by Python `str.strip()` with no argument. -/
def isPySpace (c : Char) : Bool :=
  c == ' ' || c == '\t' || c == '\n' || c == '\r' || c == Char.ofNat 11 || c == Char.ofNat 12

/-- Python's `\w` character class (ASCII fragment). -/
def isWordChar (c : Char) : Bool := c.isAlphanum || c == '_'

/-- The character class `[ \t]` used by the syncer regexes. -/
def isBlankChar (c : Char) : Bool := c == ' ' || c == '\t'

/-- Python `str.lstrip()`. -/
def pyLstrip (l : List Char) : List Char := l.dropWhile isPySpace

/-- Python `str.rstrip()`. -/
def pyRstrip (l : List Char) : List Char := (l.reverse.dropWhile isPySpace).reverse

/-- Python `str.strip()`. -/
def pyStrip (l : List Char) : List Char := pyRstrip (pyLstrip l)

/-- Python `str.strip()` on `String`. -/
def pyStripS (s : String) : String := (pyStrip s.toList).asString

/-- Splitting on the tab character, accumulating the current field reversed:
Python `str.split("\t")`. -/
def splitTabGo : List Char → List Char → List (List Char)
  | [], cur => [cur.reverse]
  | c :: rest, cur =>
    if c == '\t' then cur.reverse :: splitTabGo rest []
    else splitTabGo rest (c :: cur)

/-- Python `line.split("\t")`. -/
def pySplitTab (s : String) : List String := (splitTabGo s.toList []).map List.asString

/-- Python `str.endswith` for a plain suffix. -/
def pyEndsWith (s suffix : String) : Bool := suffix.toList.isSuffixOf s.toList

/-- Python `str.startswith` for a plain prefix, on `List Char`. -/
def pyStartsWith (l pre : List Char) : Bool := pre.isPrefixOf l

/-- Numeric value of a decimal digit character. -/
def digitVal (c : Char) : Nat := c.toNat - '0'.toNat

/-- Decimal digits, possibly separated by single underscores, as accepted by
Python `int()` after the first digit. -/
def pyIntDigits : List Char → Nat → Option Nat
  | [], acc => some acc
  | c :: rest, acc =>
    if c.isDigit then pyIntDigits rest (acc * 10 + digitVal c)
    else if c == '_' then
      match rest with
      | [] => none
      | d :: rest2 => if d.isDigit then pyIntDigits rest2 (acc * 10 + digitVal d) else none
    else none

/-- The digit part of a Python decimal integer literal: must start with a digit. -/
def pyIntStart (l : List Char) : Option Nat :=
  match l with
  | [] => none
  | c :: rest => if c.isDigit then pyIntDigits rest (digitVal c) else none

/-- Python `int(s)` on a decimal string; `none` models the raised `ValueError`. -/
def pyInt (s : String) : Option Int :=
  match pyStrip s.toList with
  | '-' :: rest => (pyIntStart rest).map (fun n => -(n : Int))
  | '+' :: rest => (pyIntStart rest).map (fun n => (n : Int))
  | l => (pyIntStart l).map (fun n => (n : Int))

/-- Python `str.splitlines()` for `\n`-separated text (no trailing empty line). -/
def pySplitLinesGo : List Char → List Char → List (List Char)
  | [], cur => [cur.reverse]
  | c :: rest, cur =>
    if c == '\n' then
      cur.reverse :: (if rest.isEmpty then [] else pySplitLinesGo rest [])
    else pySplitLinesGo rest (c :: cur)

/-- Python `str.splitlines()`. -/
def pySplitLines (l : List Char) : List (List Char) :=
  if l.isEmpty then [] else pySplitLinesGo l []

/-! ## `count_loc.py` -/

/-- `count_loc.tally`, processed one `git diff --numstat` line at a time with the
running `(added, deleted)` accumulators.  `none` models the `ValueError` raised
by the three-way tuple unpacking (a line with more than three tab-separated
fields) or by `int()` on a non-numeric count field. -/
def tallyGo (exts : List String) : List String → Int → Int → Option (Int × Int)
  | [], a, d => some (a, d)
  | line :: rest, a, d =>
    let parts := pySplitTab line
    if parts.length < 3 then tallyGo exts rest a d
    else if parts.length = 3 then
      let add := parts.getD 0 ""
      let del := parts.getD 1 ""
      let fname := parts.getD 2 ""
      if add == "-" || del == "-" then tallyGo exts rest a d
      else if !exts.isEmpty && !(exts.any (fun e => pyEndsWith fname e)) then
        tallyGo exts rest a d
      else
        match pyInt add, pyInt del with
        | some x, some y => tallyGo exts rest (a + x) (d + y)
        | _, _ => none
    else none

/-- `count_loc.tally lines exts`. -/
def tally (lines : List String) (exts : List String) : Option (Int × Int) :=
  tallyGo exts lines 0 0

/-- The claim's counting condition for one diff line, as the claim words it:
at least three tab-separated fields, neither count field `-`, and the path
field passing the (possibly empty) extension filter. -/
def claimCounts (exts : List String) (line : String) : Bool :=
  let parts := pySplitTab line
  decide (3 ≤ parts.length) && !(parts.getD 0 "" == "-") && !(parts.getD 1 "" == "-")
    && (exts.isEmpty || exts.any (fun e => pyEndsWith (parts.getD 2 "") e))

/-- One step of the claim's componentwise sum over counted lines. -/
def claimTallyStep (exts : List String) (acc : Int × Int) (line : String) : Int × Int :=
  let parts := pySplitTab line
  if claimCounts exts line then
    (acc.1 + (pyInt (parts.getD 0 "")).getD 0, acc.2 + (pyInt (parts.getD 1 "")).getD 0)
  else acc

/-- The claim's componentwise sum of the integer count fields over counted lines. -/
def claimTally (lines : List String) (exts : List String) : Int × Int :=
  lines.foldl (claimTallyStep exts) (0, 0)

/-- A diff line that `tally` processes without raising: fewer than three fields
(skipped), or exactly three fields that are either skipped by the `-`/extension
checks or carry `int()`-parsable count fields. -/
def lineOk (exts : List String) (line : String) : Bool :=
  let parts := pySplitTab line
  if parts.length < 3 then true
  else if parts.length = 3 then
    (parts.getD 0 "" == "-") || (parts.getD 1 "" == "-")
      || (!exts.isEmpty && !(exts.any (fun e => pyEndsWith (parts.getD 2 "") e)))
      || ((pyInt (parts.getD 0 "")).isSome && (pyInt (parts.getD 1 "")).isSome)
  else false

/-! ## `run_tests.py` -/

/-- Outcome of the module-level `run_tests.py` script, up to the single
build-tool invocation: either an early `exit(code)` or the argument list
handed to `subprocess.run`. -/
inductive RunnerResult where
  | exited : Nat → RunnerResult
  | gradleInvoked : List String → RunnerResult
deriving DecidableEq

/-- `gradle_executable`: the platform-dependent wrapper script. -/
def gradle_executable (isWindows : Bool) : String :=
  if isWindows then ".\\gradlew.bat" else "./gradlew"

/-- `gradle_task`. -/
def gradle_task : String := "testStandardDebugUnitTest"

/-- `gradle_command_base`. -/
def gradle_command_base (isWindows : Bool) : List String :=
  [gradle_executable isWindows, gradle_task, "--rerun-tasks"]

/-- The `test_classes` list comprehension: keep the stripped form of each line
that is non-blank and does not start with `#`. -/
def filterTestClasses (rawLines : List String) : List String :=
  (rawLines.filter
    (fun l => !(pyStripS l == "") && !("#".toList.isPrefixOf (pyStripS l).toList))).map pyStripS

/-- The loop building `gradle_command_full` by appending `--tests <class>`. -/
def gradle_command_full (isWindows : Bool) (ts : List String) : List String :=
  ts.foldl (fun acc t => acc ++ ["--tests", t]) (gradle_command_base isWindows)

/-- One `--tests t` pair per identifier, in order. -/
def pairFlags : List String → List String
  | [] => []
  | t :: ts => "--tests" :: t :: pairFlags ts

/-- The module-level control flow of `run_tests.py` up to the build-tool call:
`fileExists` models `os.path.exists`, `readRes = none` an exception while
reading the file, and `readRes = some rawLines` its successfully read lines. -/
def runnerMain (isWindows : Bool) (fileExists : Bool) (readRes : Option (List String)) :
    RunnerResult :=
  if !fileExists then .exited 1
  else
    match readRes with
    | none => .exited 1
    | some ls =>
      let ts := filterTestClasses ls
      if ts.isEmpty then .exited 0
      else .gradleInvoked (gradle_command_full isWindows ts)

/-- Whether a runner outcome is a non-zero early exit. -/
def exitedNonzero : RunnerResult → Bool
  | .exited c => c != 0
  | .gradleInvoked _ => false

/-- Concrete input-file lines for the command-shape witness. -/
def c6raw : List String := ["a.B.m1", "", "# skip", " c.D.m2 "]

/-! ## `find_ui_tests.py` -/

/-- The backtick character. -/
def backtickChar : Char := Char.ofNat 96

/-- The opening curly brace character. -/
def openBrace : Char := Char.ofNat 123

/-- The closing curly brace character. -/
def closeBrace : Char := Char.ofNat 125

/-- `line.lstrip().startswith("@Test")`. -/
def startsTest (l : List Char) : Bool := pyStartsWith (pyLstrip l) "@Test".toList

/-- One attempt of `_METHOD_DECL_RE_BACKTICK` (`fun\s+`name``) anchored at the
start of `l`; returns the back-tick-quoted name. -/
def btDeclAt (l : List Char) : Option (List Char) :=
  if pyStartsWith l "fun".toList then
    let r := l.drop 3
    let ws := (r.takeWhile isPySpace).length
    if ws == 0 then none
    else
      match r.drop ws with
      | c :: r3 =>
        if c == backtickChar then
          let content := r3.takeWhile (fun d => !(d == backtickChar))
          if content.isEmpty then none
          else if (r3.drop content.length).isEmpty then none
          else some content
        else none
      | [] => none
  else none

/-- `_METHOD_DECL_RE_BACKTICK.search`: leftmost match anywhere in the line. -/
def searchBtDecl : List Char → Option (List Char)
  | [] => none
  | c :: rest =>
    match btDeclAt (c :: rest) with
    | some nm => some nm
    | none => searchBtDecl rest

/-- One attempt of `_METHOD_DECL_RE_ID` (`fun\s+(\w+)`) anchored at the start. -/
def idDeclAt (l : List Char) : Option (List Char) :=
  if pyStartsWith l "fun".toList then
    let r := l.drop 3
    let ws := (r.takeWhile isPySpace).length
    if ws == 0 then none
    else
      let w := (r.drop ws).takeWhile isWordChar
      if w.isEmpty then none else some w
  else none

/-- `_METHOD_DECL_RE_ID.search`: leftmost match anywhere in the line. -/
def searchIdDecl : List Char → Option (List Char)
  | [] => none
  | c :: rest =>
    match idDeclAt (c :: rest) with
    | some nm => some nm
    | none => searchIdDecl rest

/-- `re.match(r"\s*fun\s", line)`. -/
def matchFunLine (l : List Char) : Bool :=
  let r := l.dropWhile isPySpace
  pyStartsWith r "fun".toList &&
    (match r.drop 3 with
     | c :: _ => isPySpace c
     | [] => false)

/-- `"\n".join(body_parts)`. -/
def joinNL : List (List Char) → List Char
  | [] => []
  | [l] => l
  | l :: rest => l ++ '\n' :: joinNL rest

/-- The loop of `_collect_method_body`: accumulate lines and the running brace
depth; stop once the depth is non-positive and the following line starts a new
`@Test` annotation or `fun` declaration. -/
def collectBodyGo (lines : List (List Char)) : Nat → Nat → Int → List (List Char) →
    List (List Char) × Nat
  | 0, i, _, acc => (acc.reverse, i)
  | fuel + 1, i, opn, acc =>
    if i < lines.length then
      let line := lines.getD i []
      let acc2 := line :: acc
      let opn2 := opn + (line.count openBrace : Int) - (line.count closeBrace : Int)
      if decide (opn2 ≤ 0) && (decide (i + 1 < lines.length)
          && (startsTest (lines.getD (i + 1) []) || matchFunLine (lines.getD (i + 1) []))) then
        (acc2.reverse, i + 1)
      else collectBodyGo lines fuel (i + 1) opn2 acc2
    else (acc.reverse, i)

/-- `_collect_method_body(lines, start_idx)`. -/
def collect_method_body (lines : List (List Char)) (start : Nat) :
    List (List Char) × Nat :=
  collectBodyGo lines (lines.length + 1) start 0 []

/-- A literal followed by `\s*` and an opening parenthesis, anchored at `l`. -/
def litThenParen (lit : List Char) (l : List Char) : Bool :=
  pyStartsWith l lit &&
    (match (l.drop lit.length).dropWhile isPySpace with
     | c :: _ => c == '('
     | [] => false)

/-- One alternative of `_COMPOSE_CALLS` anchored at the start of `l`. -/
def composeAltAt (l : List Char) : Bool :=
  pyStartsWith l "composeRule".toList || pyStartsWith l "composeTestRule".toList
    || litThenParen "onNode".toList l || litThenParen "onAllNodes".toList l
    || litThenParen "hasText".toList l || litThenParen "hasContentDescription".toList l
    || litThenParen "hasTestTag".toList l
    || litThenParen "performClick".toList l || litThenParen "performScroll".toList l
    || litThenParen "performTextInput".toList l
    || pyStartsWith l "assertExists".toList || pyStartsWith l "assertIsDisplayed".toList
    || pyStartsWith l "assertHasText".toList

/-- One alternative of `_ESPRESSO_CALLS` anchored at the start of `l`. -/
def espressoAltAt (l : List Char) : Bool :=
  litThenParen "onView".toList l || litThenParen "onData".toList l
    || litThenParen "onWebView".toList l
    || litThenParen "withId".toList l || litThenParen "withText".toList l
    || litThenParen "withContentDescription".toList l
    || litThenParen "pressBack".toList l
    || pyStartsWith l "ViewActions".toList || pyStartsWith l "ViewAssertions".toList

/-- `re.search` for a `\b`-anchored alternative: try every suffix whose first
character does not follow a word character. -/
def searchWordStart (test : List Char → Bool) : Bool → List Char → Bool
  | _, [] => false
  | prevW, c :: rest => (!prevW && test (c :: rest)) || searchWordStart test (isWordChar c) rest

/-- `_looks_like_ui_test(body)`. -/
def looks_like_ui_test (body : List Char) : Bool :=
  searchWordStart composeAltAt false body || searchWordStart espressoAltAt false body

/-- The inner `j`-loop of `extract_ui_test_names`: look ahead for a method
declaration, stopping at another `@Test` line or the end of the file. -/
def findDeclGo (lines : List (List Char)) : Nat → Nat → Option (List Char × Nat)
  | 0, _ => none
  | fuel + 1, j =>
    if j < lines.length then
      let l := lines.getD j []
      match searchBtDecl l with
      | some nm => some (nm, j)
      | none =>
        match searchIdDecl l with
        | some nm => some (nm, j)
        | none => if startsTest l then none else findDeclGo lines fuel (j + 1)
    else none

/-- The outer `idx`-loop of `extract_ui_test_names`. -/
def extractGo (lines : List (List Char)) : Nat → Nat → List (List Char) → List (List Char)
  | 0, _, acc => acc.reverse
  | fuel + 1, idx, acc =>
    if idx < lines.length then
      if startsTest (lines.getD idx []) then
        match findDeclGo lines (lines.length + 1) (idx + 1) with
        | none => extractGo lines fuel (idx + 1) acc
        | some (nm, j) =>
          let bi := collect_method_body lines j
          let acc2 := if looks_like_ui_test (joinNL bi.1) then nm :: acc else acc
          extractGo lines fuel bi.2 acc2
      else extractGo lines fuel (idx + 1) acc
    else acc.reverse

/-- `extract_ui_test_names(file_path)` applied to the file's content. -/
def extract_ui_test_names (content : List Char) : List (List Char) :=
  let lines := pySplitLines content
  extractGo lines (lines.length + 1) 0 []

/-- `re.match(r"\s*package\s+([\w\.]+)", line)`: package name of one line. -/
def pkgLineMatch (l : List Char) : Option (List Char) :=
  let r := l.dropWhile isPySpace
  if pyStartsWith r "package".toList then
    let r2 := r.drop 7
    let ws := (r2.takeWhile isPySpace).length
    if ws == 0 then none
    else
      let nm := (r2.drop ws).takeWhile (fun c => isWordChar c || c == '.')
      if nm.isEmpty then none else some nm
  else none

/-- `extract_package_name(file_path)`: the first line with a package statement. -/
def extract_package_name (content : List Char) : Option (List Char) :=
  (pySplitLines content).findSome? pkgLineMatch

/-- One file's lines in `ui_test_fqns.txt`, as written by
`write_fully_qualified_method_names`: `{pkg + '.' if pkg else ''}{stem}.{method}`
for every UI-test method of the file. -/
def fqnLinesForFile (content : List Char) (stem : List Char) : List (List Char) :=
  let pkg := (extract_package_name content).getD []
  (extract_ui_test_names content).map
    (fun m => (if pkg.isEmpty then [] else pkg ++ ['.']) ++ stem ++ '.' :: m)

/-- The spec's positive classification witness file content. -/
def c7Pos : String := "@Test\nfun greet() \x7b onNode(...) \x7d"

/-- The spec's negative classification witness file content. -/
def c7Neg : String := "@Test\nfun greet() \x7b doLocalMath() \x7d"

/-! ## `sync_ui_tests.py`: whitelist parsing and path resolution -/

/-- `raw_line.rsplit(".", 1)`: split at the last dot; `none` models the
`ValueError` of two-way unpacking when there is no dot. -/
def rsplitDot (l : List Char) : Option (List Char × List Char) :=
  let r := l.reverse
  let meth := r.takeWhile (fun c => !(c == '.'))
  if meth.length == r.length then none
  else some ((r.drop (meth.length + 1)).reverse, meth.reverse)

/-- `wanted[cls].add(meth)` on an insertion-ordered dictionary of sets. -/
def addWanted : List (String × List String) → String → String → List (String × List String)
  | [], cls, meth => [(cls, [meth])]
  | (k, vs) :: rest, cls, meth =>
    if k == cls then (k, if vs.contains meth then vs else vs ++ [meth]) :: rest
    else (k, vs) :: addWanted rest cls meth

/-- The line loop of `parse_fqns`; `none` models the `ValueError` raised by the
`rsplit` unpacking on a non-skipped line without a dot. -/
def parseFqnsGo : List (List Char) → List (String × List String) →
    Option (List (String × List String))
  | [], acc => some acc
  | line :: rest, acc =>
    if (pyStrip line).isEmpty || pyStartsWith (pyLstrip line) "#".toList then
      parseFqnsGo rest acc
    else
      match rsplitDot line with
      | none => none
      | some (cls, meth) =>
        parseFqnsGo rest (addWanted acc cls.asString (pyStrip meth).asString)

/-- `parse_fqns(raw)`: `{class-FQN → wanted methods}` in insertion order. -/
def parse_fqns (raw : String) : Option (List (String × List String)) :=
  parseFqnsGo (pySplitLines raw.toList) []

/-- `pkg.replace(".", "/")`. -/
def dotsToSlashes (l : List Char) : List Char :=
  l.map (fun c => if c == '.' then '/' else c)

/-- `fqcn_to_candidate_paths(fqcn, test_root)`; `none` models the `ValueError`
of the `rsplit` unpacking when the class name carries no package. -/
def fqcn_to_candidate_paths (fqcn : String) (test_root : String) : Option (List String) :=
  match rsplitDot fqcn.toList with
  | none => none
  | some (pkg, cls) =>
    let base := dotsToSlashes pkg ++ '/' :: cls
    some [(test_root.toList ++ '/' :: base ++ ".kt".toList).asString,
      (test_root.toList ++ '/' :: base ++ ".java".toList).asString]

/-- Union of wanted-method sets as insertion-ordered lists (`set.update`). -/
def unionMeths (xs ys : List String) : List String :=
  xs ++ ys.filter (fun y => !(xs.contains y))

/-- `per_file[rel_path].update(methods)` on an insertion-ordered map. -/
def updateAssoc : List (String × List String) → String → List String →
    List (String × List String)
  | [], k, vs => [(k, vs)]
  | (k2, vs2) :: rest, k, vs =>
    if k2 == k then (k2, unionMeths vs2 vs) :: rest
    else (k2, vs2) :: updateAssoc rest k vs

/-- One iteration of the `sync_tests` path-resolution loop, over an abstract
file-existence predicate `ex` for the old reference: extend the per-file map
with the first existing candidate path, or append a not-found warning. -/
def resolveStep (ex : String → Bool) (root : String)
    (st : List (String × List String) × List String) (e : String × List String) :
    Option (List (String × List String) × List String) :=
  match fqcn_to_candidate_paths e.1 root with
  | none => none
  | some cands =>
    match cands.find? ex with
    | some p => some (updateAssoc st.1 p e.2, st.2)
    | none => some (st.1, st.2 ++ [e.1])

/-- The `sync_tests` path-resolution loop over the parsed whitelist entries. -/
def resolveAllGo (ex : String → Bool) (root : String) :
    List (String × List String) → List (String × List String) × List String →
    Option (List (String × List String) × List String)
  | [], st => some st
  | e :: rest, st =>
    match resolveStep ex root st e with
    | none => none
    | some st2 => resolveAllGo ex root rest st2

/-- Step 2 of `sync_tests`: the per-file wanted-method map and the warning list
built from the parsed whitelist. -/
def resolveAll (ex : String → Bool) (root : String)
    (entries : List (String × List String)) :
    Option (List (String × List String) × List String) :=
  resolveAllGo ex root entries ([], [])

/-- The candidate paths of a whitelist key (`[]` when the key has no package). -/
def entryCandsKey (root : String) (k : String) : List String :=
  (fqcn_to_candidate_paths k root).getD []

/-- Whether a whitelist key resolves to an existing candidate path. -/
def keyResolves (ex : String → Bool) (root : String) (k : String) : Bool :=
  ((entryCandsKey root k).find? ex).isSome

/-- The per-file map accumulated by the resolution loop. -/
def perFileMap (ex : String → Bool) (root : String) :
    List (String × List String) → List (String × List String) →
    List (String × List String)
  | [], pf => pf
  | e :: rest, pf =>
    match (entryCandsKey root e.1).find? ex with
    | some p => perFileMap ex root rest (updateAssoc pf p e.2)
    | none => perFileMap ex root rest pf

/-- The not-found warning list accumulated by the resolution loop, in order. -/
def warnKeys (ex : String → Bool) (root : String) :
    List (String × List String) → List String
  | [] => []
  | e :: rest =>
    if keyResolves ex root e.1 then warnKeys ex root rest
    else e.1 :: warnKeys ex root rest

/-- Concrete file content for the FQN round-trip witness. -/
def c3content : String := "package pkg.sub\n\n@Test\nfun go() \x7b onNode() \x7d\n"

/-- Existence predicate for the FQN round-trip witness: only the `.kt`
candidate exists at the old reference. -/
def c3ex : String → Bool := fun p => p == "app/src/test/java/pkg/sub/Foo.kt"

/-- Existence predicate for the unresolved-FQN witness. -/
def c8ex : String → Bool := fun p => p == "r/a/Good.kt"

/-- Whitelist entries for the unresolved-FQN witness. -/
def c8entries : List (String × List String) := [("a.Good", ["m1"]), ("b.Bad", ["m2"])]

/-- Existence predicate for the missing-package witness: every path exists. -/
def c10ex : String → Bool := fun _ => true

/-! ## `sync_ui_tests.py`: the method-pruning transform

The regexes `_KT_RE` and `_JAVA_RE` are implemented directly: a match can only
start at a line start (the annotation group is `^`-anchored), greedily consumes
one-plus annotation lines, and then requires the `fun`/`void` declaration
header through its opening brace.  No regex backtracking can produce any other
match, because an annotation line can never begin a declaration header and each
sub-pattern's greedy maximum is forced by the character that must follow it. -/

/-- One line of the annotation group `^[ \t]*@\w+[^\n]*\n`: its length. -/
def annotLineLen (l : List Char) : Option Nat :=
  let ws := (l.takeWhile isBlankChar).length
  match l.drop ws with
  | '@' :: r2 =>
    let w := (r2.takeWhile isWordChar).length
    if w == 0 then none
    else
      let r3 := r2.drop w
      let rest := (r3.takeWhile (fun c => !(c == '\n'))).length
      match r3.drop rest with
      | '\n' :: _ => some (ws + 1 + w + rest + 1)
      | _ => none
  | _ => none

/-- The greedy run of annotation lines `(?:^[ \t]*@\w+[^\n]*\n)+`: total
length of the maximal run (each line consumes at least one character, so a
fuel of the remaining length suffices). -/
def annotRunGo : Nat → List Char → Nat
  | 0, _ => 0
  | fuel + 1, l =>
    match annotLineLen l with
    | none => 0
    | some n => n + annotRunGo fuel (l.drop n)

/-- The greedy annotation-line run starting at `l`. -/
def annotRun (l : List Char) : Nat := annotRunGo (l.length + 1) l

/-- The Kotlin method-name group `(`[^`]+`|\w+)`: its raw text (back-ticks
included, as in the regex group) and consumed length. -/
def nameTokenKt (l : List Char) : Option (Nat × List Char) :=
  match l with
  | [] => none
  | c :: r =>
    if c == backtickChar then
      let content := r.takeWhile (fun d => !(d == backtickChar))
      if content.isEmpty then none
      else
        match r.drop content.length with
        | d :: _ => some (content.length + 2, c :: (content ++ [d]))
        | [] => none
    else
      let w := (c :: r).takeWhile isWordChar
      if w.isEmpty then none else some (w.length, w)

/-- The parameter list and braces `\([^)]*\)[ \t]*\{` after the name: consumed
length including the opening brace. -/
def paramsBrace (l : List Char) : Option Nat :=
  match l with
  | '(' :: r =>
    let plen := (r.takeWhile (fun c => !(c == ')'))).length
    match r.drop plen with
    | ')' :: r2 =>
      let ws := (r2.takeWhile isBlankChar).length
      match r2.drop ws with
      | c :: _ => if c == openBrace then some (1 + plen + 1 + ws + 1) else none
      | [] => none
    | _ => none
  | _ => none

/-- The Kotlin declaration header `[ \t]*fun[ \t]+name\([^)]*\)[ \t]*\{`:
consumed length (through the opening brace) and the raw name group. -/
def ktHeader (l : List Char) : Option (Nat × List Char) :=
  let ws1 := (l.takeWhile isBlankChar).length
  let r1 := l.drop ws1
  if pyStartsWith r1 "fun".toList then
    let r2 := r1.drop 3
    let ws2 := (r2.takeWhile isBlankChar).length
    if ws2 == 0 then none
    else
      match nameTokenKt (r2.drop ws2) with
      | none => none
      | some (nlen, nm) =>
        let r4 := (r2.drop ws2).drop nlen
        let ws3 := (r4.takeWhile isBlankChar).length
        match paramsBrace (r4.drop ws3) with
        | none => none
        | some plen => some (ws1 + 3 + ws2 + nlen + ws3 + plen, nm)
  else none

/-- The Java declaration header `[ \t]*(?:public[ \t]+)?void[ \t]+\w+\([^)]*\)[ \t]*\{`. -/
def javaHeader (l : List Char) : Option (Nat × List Char) :=
  let ws1 := (l.takeWhile isBlankChar).length
  let r1 := l.drop ws1
  let pubws :=
    if pyStartsWith r1 "public".toList then
      let wsp := ((r1.drop 6).takeWhile isBlankChar).length
      if wsp == 0 then 0 else 6 + wsp
    else 0
  let r2 := r1.drop pubws
  if pyStartsWith r2 "void".toList then
    let r3 := r2.drop 4
    let ws2 := (r3.takeWhile isBlankChar).length
    if ws2 == 0 then none
    else
      let w := ((r3.drop ws2).takeWhile isWordChar)
      if w.isEmpty then none
      else
        let r4 := (r3.drop ws2).drop w.length
        let ws3 := (r4.takeWhile isBlankChar).length
        match paramsBrace (r4.drop ws3) with
        | none => none
        | some plen => some (ws1 + pubws + 4 + ws2 + w.length + ws3 + plen, w)
  else none

/-- A whole-regex match attempt at a line start: annotation-group length,
total match length (through the opening brace) and the raw name group. -/
def matchAt (isKt : Bool) (l : List Char) : Option (Nat × Nat × List Char) :=
  match annotLineLen l with
  | none => none
  | some _ =>
    let a := annotRun l
    match (if isKt then ktHeader (l.drop a) else javaHeader (l.drop a)) with
    | none => none
    | some (h, nm) => some (a, a + h, nm)

/-- Scan for the next match at or after position `p`: matches can only start
at line starts.  Returns `(start, annotation-end, end, raw name)`. -/
def findMatchGo (isKt : Bool) (src : List Char) : Nat → Nat → Option (Nat × Nat × Nat × List Char)
  | 0, _ => none
  | fuel + 1, p =>
    if src.length ≤ p then none
    else if p = 0 ∨ src.getD (p - 1) ' ' = '\n' then
      match matchAt isKt (src.drop p) with
      | some (a, t, nm) => some (p, p + a, p + t, nm)
      | none => findMatchGo isKt src fuel (p + 1)
    else findMatchGo isKt src fuel (p + 1)

/-- `pat.finditer(src)`: all non-overlapping matches, scanning left to right
and resuming after each match's end.  Every match consumes at least one
character, so `src.length + 1` matches bound the list. -/
def finditerGo (isKt : Bool) (src : List Char) : Nat → Nat → List (Nat × Nat × Nat × List Char)
  | 0, _ => []
  | fuel + 1, p =>
    match findMatchGo isKt src (src.length + 1) p with
    | none => []
    | some m => m :: finditerGo isKt src fuel m.2.2.1

/-- All matches of the method regex over the source text. -/
def finditer (isKt : Bool) (src : List Char) : List (Nat × Nat × Nat × List Char) :=
  finditerGo isKt src (src.length + 1) 0

/-- Python slicing `src[a:b]` (clamping, empty when `a ≥ b`). -/
def pySlice (l : List Char) (a b : Nat) : List Char := (l.take b).drop a

/-- Substring containment (`needle in hay`). -/
def hasSubList : List Char → List Char → Bool
  | [], needle => needle.isEmpty
  | c :: rest, needle => pyStartsWith (c :: rest) needle || hasSubList rest needle

/-- `src.find(c, start)`. -/
def findCharGo (src : List Char) (c : Char) : Nat → Nat → Option Nat
  | 0, _ => none
  | fuel + 1, i =>
    if src.length ≤ i then none
    else if src.getD i ' ' == c then some i
    else findCharGo src c fuel (i + 1)

/-- `src.find(c, start)` with the usual fuel. -/
def findCharFrom (src : List Char) (c : Char) (start : Nat) : Option Nat :=
  findCharGo src c (src.length + 1) start

/-- The brace-counting deletion loop `while depth and i < len(src)`. -/
def braceScanGo (src : List Char) : Nat → Nat → Nat → Nat
  | 0, i, _ => i
  | fuel + 1, i, depth =>
    if depth = 0 ∨ src.length ≤ i then i
    else
      let c := src.getD i ' '
      braceScanGo src fuel (i + 1)
        (if c == openBrace then depth + 1 else if c == closeBrace then depth - 1 else depth)

/-- `name.strip("`")`. -/
def stripTicks (l : List Char) : List Char :=
  ((l.dropWhile (fun c => c == backtickChar)).reverse.dropWhile
    (fun c => c == backtickChar)).reverse

/-- The match loop of `strip_unwanted_tests`: keep matches whose annotation
block lacks a test marker or whose name is wanted; otherwise delete from the
match start through the brace-matched closing brace. -/
def stripGo (src : List Char) (keep : List (List Char)) :
    List (Nat × Nat × Nat × List Char) → Nat → List Char → List Char
  | [], last, acc => acc ++ pySlice src last src.length
  | (s, aEnd, e, nm) :: ms, last, acc =>
    let annots := pySlice src s aEnd
    if !(hasSubList annots "@Test".toList) && !(hasSubList annots "@ParameterizedTest".toList)
    then stripGo src keep ms last acc
    else
      let name := pyStrip (stripTicks nm)
      if keep.contains name then stripGo src keep ms last acc
      else
        let i0 := match findCharFrom src openBrace (e - 1) with
          | some j => j + 1
          | none => 0
        let iEnd := braceScanGo src (src.length + 1) i0 1
        stripGo src keep ms iEnd (acc ++ pySlice src last s)

/-- `strip_unwanted_tests(src, keep, ext)`. -/
def strip_unwanted_tests (src : String) (keep : List String) (ext : String) : String :=
  let isKt := ext == ".kt"
  (stripGo src.toList (keep.map String.toList) (finditer isKt src.toList) 0 []).asString

/-- Everything before the `testA` block in the round-trip scenario file:
a package line, the class header and an `@Before` setup method. -/
def c1Pre : String :=
  "package pkg\n\nclass FooTest \x7b\n  @Before\n  fun setUp() \x7b\n    helper()\n  \x7d\n\n"

/-- The kept `testA` block: annotation through closing brace. -/
def c1A : String := "  @Test\n  fun testA() \x7b\n    onNode()\n    ok()\n  \x7d"

/-- The bytes between `testA` and the `testB` annotation block. -/
def c1Mid : String := "\n\n"

/-- The deleted `testB` block: annotation through closing brace. -/
def c1B : String := "  @Test\n  fun testB() \x7b\n    bad()\n  \x7d"

/-- The bytes after `testB`'s closing brace. -/
def c1Tail : String := "\n\x7d\n"

/-- The full round-trip scenario file. -/
def c1Src : String := c1Pre ++ c1A ++ c1Mid ++ c1B ++ c1Tail

/-- Source text on which pruning is not idempotent: `testA`'s closing brace is
immediately followed on the same line by the `@Test` annotation of `b`. -/
def c2Src : String := "@Test\nfun a() \x7b x() \x7d@Test\nfun b() \x7b y() \x7d\n"

/-! ## Theorems: count_loc -/

/-- Any list of lines that `lineOk` accepts is handled by `tallyGo` exactly as the
claim's componentwise sum predicts, with the accumulators threaded through. -/
theorem tallyGo_eq_foldl (exts : List String) :
    forall (lines : List String) (a d : Int),
      (forall l, l ∈ lines → lineOk exts l = true) →
      tallyGo exts lines a d = some (lines.foldl (claimTallyStep exts) (a, d))
  | [], a, d, _ => rfl
  | line :: rest, a, d, h => by
    have hline : lineOk exts line = true := h line (List.mem_cons_self _ _)
    have hrest : forall l, l ∈ rest → lineOk exts l = true :=
      fun l hl => h l (List.mem_cons_of_mem _ hl)
    rw [tallyGo, List.foldl_cons]
    by_cases h3 : (pySplitTab line).length < 3
    · rw [if_pos h3]
      have hcc : claimCounts exts line = false := by
        simp only [claimCounts, Bool.and_eq_false_iff, decide_eq_false_iff_not]
        left; left; left; omega
      rw [show claimTallyStep exts (a, d) line = (a, d) by
        simp [claimTallyStep, hcc]]
      exact tallyGo_eq_foldl exts rest a d hrest
    · rw [if_neg h3]
      by_cases h3e : (pySplitTab line).length = 3
      · rw [if_pos h3e]
        by_cases hd : ((pySplitTab line).getD 0 "" == "-"
            || (pySplitTab line).getD 1 "" == "-") = true
        · rw [if_pos hd]
          have hcc : claimCounts exts line = false := by
            simp only [claimCounts]
            rcases Bool.or_eq_true_iff.mp hd with h1 | h1
            · rw [h1]; simp
            · rw [h1]; simp
          rw [show claimTallyStep exts (a, d) line = (a, d) by
            simp [claimTallyStep, hcc]]
          exact tallyGo_eq_foldl exts rest a d hrest
        · rw [if_neg hd]
          have hd' : ((pySplitTab line).getD 0 "" == "-"
              || (pySplitTab line).getD 1 "" == "-") = false := by
            revert hd
            cases ((pySplitTab line).getD 0 "" == "-"
              || (pySplitTab line).getD 1 "" == "-") <;> simp
          obtain ⟨hb0, hb1⟩ := Bool.or_eq_false_iff.mp hd'
          by_cases he : (!exts.isEmpty
              && !(exts.any (fun e => pyEndsWith ((pySplitTab line).getD 2 "") e))) = true
          · rw [if_pos he]
            obtain ⟨h1, h2⟩ := Bool.and_eq_true_iff.mp he
            have h1' : exts.isEmpty = false := by revert h1; cases exts.isEmpty <;> simp
            have h2' : exts.any (fun e => pyEndsWith ((pySplitTab line).getD 2 "") e)
                = false := by
              revert h2
              cases exts.any (fun e => pyEndsWith ((pySplitTab line).getD 2 "") e) <;> simp
            have hcc : claimCounts exts line = false := by
              simp only [claimCounts]
              rw [h1', h2']; simp
            rw [show claimTallyStep exts (a, d) line = (a, d) by
              simp [claimTallyStep, hcc]]
            exact tallyGo_eq_foldl exts rest a d hrest
          · rw [if_neg he]
            have he' : (!exts.isEmpty
                && !(exts.any (fun e => pyEndsWith ((pySplitTab line).getD 2 "") e)))
                = false := by
              revert he
              cases (!exts.isEmpty
                && !(exts.any (fun e => pyEndsWith ((pySplitTab line).getD 2 "") e))) <;> simp
            have hsome : ((pyInt ((pySplitTab line).getD 0 "")).isSome
                && (pyInt ((pySplitTab line).getD 1 "")).isSome) = true := by
              have hlo := hline
              rw [lineOk, if_neg h3, if_pos h3e] at hlo
              rcases Bool.or_eq_true_iff.mp hlo with h1 | h1
              · exfalso
                rcases Bool.or_eq_true_iff.mp h1 with h2 | h2
                · rcases Bool.or_eq_true_iff.mp h2 with h4 | h4
                  · rw [h4] at hb0; simp at hb0
                  · rw [h4] at hb1; simp at hb1
                · rw [h2] at he'; simp at he'
              · exact h1
            rcases Bool.and_eq_true_iff.mp hsome with ⟨hx, hy⟩
            obtain ⟨x, hx⟩ := Option.isSome_iff_exists.mp hx
            obtain ⟨y, hy⟩ := Option.isSome_iff_exists.mp hy
            rw [hx, hy]
            have hext : (exts.isEmpty
                || exts.any (fun e => pyEndsWith ((pySplitTab line).getD 2 "") e)) = true := by
              rcases Bool.and_eq_false_iff.mp he' with h1 | h1
              · have : exts.isEmpty = true := by revert h1; cases exts.isEmpty <;> simp
                rw [this]; simp
              · have : exts.any (fun e => pyEndsWith ((pySplitTab line).getD 2 "") e)
                    = true := by
                  revert h1
                  cases exts.any (fun e => pyEndsWith ((pySplitTab line).getD 2 "") e) <;> simp
                rw [this]; simp
            have hcc : claimCounts exts line = true := by
              simp only [claimCounts]
              rw [hb0, hb1, hext, decide_eq_true (by omega : 3 ≤ (pySplitTab line).length)]
              simp
            have hstep : claimTallyStep exts (a, d) line = (a + x, d + y) := by
              simp only [claimTallyStep]
              rw [if_pos hcc, hx, hy]
              simp
            rw [hstep]
            exact tallyGo_eq_foldl exts rest (a + x) (d + y) hrest
      · exfalso
        rw [lineOk, if_neg h3, if_neg h3e] at hline
        exact Bool.false_ne_true hline

/-- A diff line with more than three tab-separated fields makes `tallyGo` raise
(`none`), wherever it occurs and whatever the accumulators are. -/
theorem tallyGo_extra_field (exts : List String) (line : String) (post : List String)
    (h : 3 < (pySplitTab line).length) :
    forall (pre : List String) (a d : Int),
      tallyGo exts (pre ++ line :: post) a d = none
  | [], a, d => by
    rw [List.nil_append, tallyGo]
    rw [if_neg (by omega), if_neg (by omega)]
  | p :: pre, a, d => by
    rw [List.cons_append, tallyGo]
    dsimp only
    split
    · exact tallyGo_extra_field exts line post h pre _ _
    · split
      · split
        · exact tallyGo_extra_field exts line post h pre _ _
        · split
          · exact tallyGo_extra_field exts line post h pre _ _
          · split
            · exact tallyGo_extra_field exts line post h pre _ _
            · rfl
      · rfl

/-- C9: the line-diff tally is partial, not total — an input line with strictly
more than three tab-separated fields makes `tally` raise an unhandled exception
(modelled as `none`) instead of skipping or counting the record. -/
theorem tally_extra_field_aborts (line : String) (pre post : List String)
    (exts : List String) (h : 3 < (pySplitTab line).length) :
    tally (pre ++ line :: post) exts = none :=
  tallyGo_extra_field exts line post h pre 0 0

/-- Witness for `tally_extra_field_aborts` at a concrete four-field line. -/
theorem tally_extra_field_aborts_witness :
    3 < (pySplitTab "1\t2\ta\tb").length
      ∧ tally ["0\t0\tz.kt", "1\t2\ta\tb", "5\t5\tq.kt"] [] = none :=
  ⟨by decide, tally_extra_field_aborts "1\t2\ta\tb" ["0\t0\tz.kt"] ["5\t5\tq.kt"] [] (by decide)⟩

/-- C4 counterexample: on a line with four tab-separated fields (which still has
"at least 3 tab-separated fields" and no `-` count field), `tally` raises instead
of returning the claim's componentwise sum. -/
theorem tally_claim_counterexample :
    tally ["1\t2\ta.kt\tx"] [] = none
      ∧ tally ["1\t2\ta.kt\tx"] [] ≠ some (claimTally ["1\t2\ta.kt\tx"] []) := by
  constructor
  · decide
  · decide

/-- C4 (amended): for diff lines with at most three tab-separated fields (and
`int()`-parsable count fields whenever a line is actually counted), the tally
equals the componentwise sum of the integer count fields over exactly the lines
with three fields, no `-` count field, and a path passing the extension filter;
skipped lines contribute zero. -/
theorem tally_matches_claim (lines exts : List String)
    (h : forall l, l ∈ lines → lineOk exts l = true) :
    tally lines exts = some (claimTally lines exts) :=
  tallyGo_eq_foldl exts lines 0 0 h

/-- Witness for `tally_matches_claim` on a concrete mixed line list. -/
theorem tally_matches_claim_witness :
    tally ["3\t4\ta.kt", "-\t0\tb.png", "x", "1\t2\tc.java"] [".kt", ".java"] = some (4, 6)
      ∧ claimTally ["3\t4\ta.kt", "-\t0\tb.png", "x", "1\t2\tc.java"] [".kt", ".java"]
        = (4, 6) :=
  ⟨(tally_matches_claim _ _ (by decide)).trans (by decide), by decide⟩

/-! ## Theorems: run_tests -/

/-- Folding the `--tests` append loop over any initial command list appends one
`--tests t` pair per identifier, in order. -/
theorem foldl_pairFlags :
    forall (ts acc : List String),
      ts.foldl (fun a t => a ++ ["--tests", t]) acc = acc ++ pairFlags ts
  | [], acc => by simp [pairFlags]
  | t :: ts, acc => by
    rw [List.foldl_cons, foldl_pairFlags ts, pairFlags]
    simp

/-- C5 counterexample: with the input file present and readable but yielding
zero identifiers after filtering, the runner exits with status zero — not the
non-zero status the claim requires. -/
theorem runner_zero_identifiers_counterexample :
    runnerMain true true (some ["# only a comment", "   "]) = RunnerResult.exited 0
      ∧ exitedNonzero (runnerMain true true (some ["# only a comment", "   "])) = false := by
  constructor
  · decide
  · decide

/-- C5 (amended): the runner exits with status 1 (and a message) when the input
file is absent or unreadable; when the file reads successfully but zero
identifiers remain after discarding blank and `#` lines it prints a message and
exits with status zero — in all three cases without invoking the build tool. -/
theorem runner_exit_codes (isWindows : Bool) (readRes : Option (List String)) :
    runnerMain isWindows false readRes = RunnerResult.exited 1
      ∧ runnerMain isWindows true none = RunnerResult.exited 1
      ∧ forall ls, filterTestClasses ls = [] →
          runnerMain isWindows true (some ls) = RunnerResult.exited 0 := by
  refine ⟨rfl, rfl, fun ls hls => ?_⟩
  simp only [runnerMain, hls]
  rfl

/-- Witness for `runner_exit_codes` at concrete inputs. -/
theorem runner_exit_codes_witness :
    runnerMain false false none = RunnerResult.exited 1
      ∧ runnerMain false true none = RunnerResult.exited 1
      ∧ runnerMain false true (some ["# skip", "  "]) = RunnerResult.exited 0 :=
  ⟨(runner_exit_codes false none).1, (runner_exit_codes false none).2.1,
    (runner_exit_codes false none).2.2 _ (by decide)⟩

/-- C6: with at least one identifier surviving the filter, the runner performs
exactly one build-tool invocation whose argument list is the executable, the
fixed task name, `--rerun-tasks`, and then one `--tests tᵢ` pair per identifier
in file order — nothing else. -/
theorem runner_single_invocation (isWindows : Bool) (rawLines : List String)
    (h : filterTestClasses rawLines ≠ []) :
    runnerMain isWindows true (some rawLines)
      = RunnerResult.gradleInvoked
          (gradle_executable isWindows :: gradle_task :: "--rerun-tasks"
            :: pairFlags (filterTestClasses rawLines)) := by
  cases hh : filterTestClasses rawLines with
  | nil => exact absurd hh h
  | cons t ts =>
    have hcmd : runnerMain isWindows true (some rawLines)
        = RunnerResult.gradleInvoked (gradle_command_full isWindows (t :: ts)) := by
      simp only [runnerMain, hh]
      rfl
    rw [hcmd, gradle_command_full, foldl_pairFlags]
    rfl

/-- Witness for `runner_single_invocation` on a concrete input file. -/
theorem runner_single_invocation_witness :
    runnerMain false true (some c6raw)
      = RunnerResult.gradleInvoked
          ["./gradlew", "testStandardDebugUnitTest", "--rerun-tasks",
            "--tests", "a.B.m1", "--tests", "c.D.m2"] :=
  (runner_single_invocation false c6raw (by decide)).trans (by decide)

/-! ## Theorems: find_ui_tests -/

/-- C7: on the spec's positive witness the scanner classifies `greet` as a UI
test; on the negative witness (same file with a `doLocalMath()` body) `greet`
is excluded from the method list and hence from both reports. -/
theorem scanner_ui_classification :
    extract_ui_test_names c7Pos.toList = ["greet".toList]
      ∧ extract_ui_test_names c7Neg.toList = []
      ∧ fqnLinesForFile c7Neg.toList "Foo".toList = [] := by
  exact ⟨by decide, by decide, by decide⟩

/-- C3: for any file content whose package statement names `pkg.sub` and whose
base name is `Foo`, the scanner emits `pkg.sub.Foo.<m>` for each UI-test method
`m`; the syncer maps `pkg.sub.Foo` back to the `.kt` candidate before the
`.java` one under the default test root, and takes the `.kt` path whenever it
exists. -/
theorem scanner_syncer_fqn_roundtrip (content : List Char)
    (h : extract_package_name content = some "pkg.sub".toList) :
    fqnLinesForFile content "Foo".toList
        = (extract_ui_test_names content).map (fun m => "pkg.sub.Foo.".toList ++ m)
      ∧ fqcn_to_candidate_paths "pkg.sub.Foo" "app/src/test/java"
          = some ["app/src/test/java/pkg/sub/Foo.kt", "app/src/test/java/pkg/sub/Foo.java"]
      ∧ forall ex : String → Bool, ex "app/src/test/java/pkg/sub/Foo.kt" = true →
          List.find? ex
              ["app/src/test/java/pkg/sub/Foo.kt", "app/src/test/java/pkg/sub/Foo.java"]
            = some "app/src/test/java/pkg/sub/Foo.kt" := by
  refine ⟨?_, by decide, ?_⟩
  · unfold fqnLinesForFile
    rw [h]
    rfl
  · intro ex hex
    simp [List.find?, hex]

/-- Witness for `scanner_syncer_fqn_roundtrip` on a concrete file. -/
theorem scanner_syncer_fqn_roundtrip_witness :
    fqnLinesForFile c3content.toList "Foo".toList = ["pkg.sub.Foo.go".toList]
      ∧ fqcn_to_candidate_paths "pkg.sub.Foo" "app/src/test/java"
          = some ["app/src/test/java/pkg/sub/Foo.kt", "app/src/test/java/pkg/sub/Foo.java"]
      ∧ List.find? c3ex
            ["app/src/test/java/pkg/sub/Foo.kt", "app/src/test/java/pkg/sub/Foo.java"]
          = some "app/src/test/java/pkg/sub/Foo.kt" := by
  have h := scanner_syncer_fqn_roundtrip c3content.toList (by decide)
  exact ⟨h.1.trans (by decide), h.2.1, h.2.2 c3ex (by decide)⟩

/-! ## Theorems: sync_ui_tests whitelist parsing -/

/-- `takeWhile` keeps a list whose members all satisfy the predicate. -/
theorem takeWhile_eq_self_of_all {α : Type} (p : α → Bool) :
    forall (l : List α), (forall c, c ∈ l → p c = true) → l.takeWhile p = l
  | [], _ => rfl
  | c :: rest, h => by
    rw [List.takeWhile_cons, h c (List.mem_cons_self _ _)]
    rw [takeWhile_eq_self_of_all p rest (fun d hd => h d (List.mem_cons_of_mem _ hd))]
    rfl

/-- `rsplit(".", 1)` on a dot-free string yields a single field (`none`). -/
theorem rsplitDot_none (l : List Char) (h : '.' ∉ l) : rsplitDot l = none := by
  unfold rsplitDot
  dsimp only
  rw [takeWhile_eq_self_of_all _ l.reverse (fun c hc => by
    have hc2 : c ∈ l := List.mem_reverse.mp hc
    have hne : c ≠ '.' := fun he => h (he ▸ hc2)
    simp [hne])]
  simp

/-- A non-skipped whitelist line without a dot makes the `parse_fqns` loop
raise, whatever has accumulated. -/
theorem parseFqnsGo_no_dot :
    forall (lines : List (List Char)) (acc : List (String × List String)),
      (exists line, line ∈ lines ∧ (pyStrip line).isEmpty = false
        ∧ pyStartsWith (pyLstrip line) "#".toList = false ∧ '.' ∉ line) →
      parseFqnsGo lines acc = none
  | [], _, ⟨_, hmem, _⟩ => absurd hmem (List.not_mem_nil _)
  | l :: rest, acc, ⟨line, hmem, h1, h2, h3⟩ => by
    rw [parseFqnsGo]
    rcases List.mem_cons.mp hmem with rfl | hmem2
    · have hcond : ((pyStrip line).isEmpty || pyStartsWith (pyLstrip line) "#".toList)
          = false := by rw [h1, h2]; rfl
      rw [if_neg (by rw [hcond]; simp)]
      rw [rsplitDot_none line h3]
    · by_cases hcond : ((pyStrip l).isEmpty || pyStartsWith (pyLstrip l) "#".toList) = true
      · rw [if_pos hcond]
        exact parseFqnsGo_no_dot rest acc ⟨line, hmem2, h1, h2, h3⟩
      · rw [if_neg hcond]
        cases hr : rsplitDot l with
        | none => rfl
        | some pr =>
          obtain ⟨cls, meth⟩ := pr
          exact parseFqnsGo_no_dot rest _ ⟨line, hmem2, h1, h2, h3⟩

/-- A whitelist entry whose key has no dot aborts the whole resolution loop. -/
theorem resolveAllGo_no_dot (ex : String → Bool) (root : String) (fqcn : String)
    (hdot : '.' ∉ fqcn.toList) :
    forall (entries : List (String × List String))
      (st : List (String × List String) × List String),
      (exists ms, (fqcn, ms) ∈ entries) →
      resolveAllGo ex root entries st = none
  | [], _, ⟨_, hmem⟩ => absurd hmem (List.not_mem_nil _)
  | e :: rest, st, ⟨ms, hmem⟩ => by
    rw [resolveAllGo]
    rcases List.mem_cons.mp hmem with rfl | hmem2
    · rw [show resolveStep ex root st (fqcn, ms) = none by
        rw [resolveStep]
        have : fqcn_to_candidate_paths fqcn root = none := by
          rw [fqcn_to_candidate_paths, rsplitDot_none _ hdot]
        rw [this]]
    · cases hs : resolveStep ex root st e with
      | none => rfl
      | some st2 => exact resolveAllGo_no_dot ex root fqcn hdot rest st2 ⟨ms, hmem2⟩

/-- C10: the syncer requires every whitelist entry to carry a package — a
non-skipped line without a dot makes `parse_fqns` raise; a class name without a
dot (the scanner's output for a file with no package statement) makes
`fqcn_to_candidate_paths` raise; and such an entry aborts the whole resolution
run instead of producing a not-found warning. -/
theorem fqn_requires_package :
    (forall raw : String,
        (exists line, line ∈ pySplitLines raw.toList ∧ (pyStrip line).isEmpty = false
          ∧ pyStartsWith (pyLstrip line) "#".toList = false ∧ '.' ∉ line) →
        parse_fqns raw = none)
      ∧ (forall fqcn root : String, '.' ∉ fqcn.toList →
          fqcn_to_candidate_paths fqcn root = none)
      ∧ (forall (ex : String → Bool) (root : String)
            (entries : List (String × List String)) (fqcn : String) (ms : List String),
          (fqcn, ms) ∈ entries → '.' ∉ fqcn.toList →
          resolveAll ex root entries = none) := by
  refine ⟨fun raw h => parseFqnsGo_no_dot _ [] h, fun fqcn root h => ?_, ?_⟩
  · rw [fqcn_to_candidate_paths, rsplitDot_none _ h]
  · intro ex root entries fqcn ms hmem hdot
    exact resolveAllGo_no_dot ex root fqcn hdot entries ([], []) ⟨ms, hmem⟩

/-- Witness for `fqn_requires_package` at concrete inputs. -/
theorem fqn_requires_package_witness :
    parse_fqns "NoDotsHere" = none
      ∧ fqcn_to_candidate_paths "Foo" "r" = none
      ∧ resolveAll c10ex "r" [("Foo", ["m"])] = none := by
  have h := fqn_requires_package
  exact ⟨h.1 "NoDotsHere" ⟨"NoDotsHere".toList, by decide⟩,
    h.2.1 "Foo" "r" (by decide),
    h.2.2 c10ex "r" [("Foo", ["m"])] "Foo" ["m"] (by decide) (by decide)⟩

/-! ## Theorems: sync_ui_tests path resolution -/

/-- Characterization of the resolution loop when every whitelist key carries a
package: it never raises, accumulates the per-file map over the resolved
entries, and appends one warning key per unresolved entry, in order. -/
theorem resolveAllGo_spec (ex : String → Bool) (root : String) :
    forall (entries : List (String × List String)) (pf : List (String × List String))
      (ws : List String),
      (forall e, e ∈ entries → fqcn_to_candidate_paths e.1 root ≠ none) →
      resolveAllGo ex root entries (pf, ws)
        = some (perFileMap ex root entries pf, ws ++ warnKeys ex root entries)
  | [], pf, ws, _ => by simp [resolveAllGo, perFileMap, warnKeys]
  | e :: rest, pf, ws, h => by
    have he : fqcn_to_candidate_paths e.1 root ≠ none := h e (List.mem_cons_self _ _)
    have hrest : forall e2, e2 ∈ rest → fqcn_to_candidate_paths e2.1 root ≠ none :=
      fun e2 he2 => h e2 (List.mem_cons_of_mem _ he2)
    obtain ⟨cs, hcs⟩ := Option.ne_none_iff_exists'.mp he
    have hck : entryCandsKey root e.1 = cs := by rw [entryCandsKey, hcs]; rfl
    rw [resolveAllGo]
    cases hf : cs.find? ex with
    | some p =>
      have hstep : resolveStep ex root (pf, ws) e = some (updateAssoc pf p e.2, ws) := by
        simp only [resolveStep, hcs, hf]
      rw [hstep]
      dsimp only
      rw [resolveAllGo_spec ex root rest _ _ hrest]
      simp only [perFileMap, warnKeys, keyResolves, hck, hf, Option.isSome_some, if_true]
    | none =>
      have hstep : resolveStep ex root (pf, ws) e = some (pf, ws ++ [e.1]) := by
        simp only [resolveStep, hcs, hf]
      rw [hstep]
      dsimp only
      rw [resolveAllGo_spec ex root rest _ _ hrest]
      simp only [perFileMap, warnKeys, keyResolves, hck, hf, Option.isSome_none,
        Bool.false_eq_true, if_false]
      rw [List.append_assoc]
      rfl

/-- The warning list counts a key at most as often as the whitelist does. -/
theorem warnKeys_count_le (ex : String → Bool) (root : String) (k : String) :
    forall entries : List (String × List String),
      (warnKeys ex root entries).count k ≤ ((entries.map Prod.fst).count k)
  | [] => le_refl _
  | e :: rest => by
    rw [warnKeys, List.map_cons, List.count_cons]
    have ih := warnKeys_count_le ex root k rest
    by_cases hr : keyResolves ex root e.1 = true
    · rw [if_pos hr]
      omega
    · rw [if_neg hr, List.count_cons]
      omega

/-- An unresolved member key appears among the warnings. -/
theorem mem_warnKeys (ex : String → Bool) (root : String) (k : String) (ms : List String)
    (hunres : keyResolves ex root k = false) :
    forall entries : List (String × List String),
      (k, ms) ∈ entries → k ∈ warnKeys ex root entries
  | [], hmem => absurd hmem (List.not_mem_nil _)
  | e :: rest, hmem => by
    rw [warnKeys]
    rcases List.mem_cons.mp hmem with heq | hmem2
    · subst heq
      rw [if_neg (by show ¬ keyResolves ex root k = true; rw [hunres]; simp)]
      exact List.mem_cons_self _ _
    · by_cases hr : keyResolves ex root e.1 = true
      · rw [if_pos hr]
        exact mem_warnKeys ex root k ms hunres rest hmem2
      · rw [if_neg hr]
        exact List.mem_cons_of_mem _ (mem_warnKeys ex root k ms hunres rest hmem2)

/-- Dropping an unresolved key from the whitelist leaves the per-file map
unchanged: the unresolved entry never contributes to it. -/
theorem perFileMap_drop (ex : String → Bool) (root : String) (k : String)
    (hunres : keyResolves ex root k = false) :
    forall (entries : List (String × List String)) (pf : List (String × List String)),
      perFileMap ex root (entries.filter (fun e => !(e.1 == k))) pf
        = perFileMap ex root entries pf
  | [], pf => rfl
  | e :: rest, pf => by
    rw [List.filter_cons]
    by_cases hk : (e.1 == k) = true
    · rw [if_neg (by rw [hk]; simp)]
      have hke : e.1 = k := eq_of_beq hk
      have hfind : (entryCandsKey root e.1).find? ex = none := by
        rw [hke]
        cases hfo : (entryCandsKey root k).find? ex with
        | none => rfl
        | some p => rw [keyResolves, hfo] at hunres; simp at hunres
      rw [show perFileMap ex root (e :: rest) pf = perFileMap ex root rest pf by
        simp only [perFileMap, hfind]]
      exact perFileMap_drop ex root k hunres rest pf
    · have hpe : (!(e.1 == k)) = true := by revert hk; cases (e.1 == k) <;> simp
      rw [if_pos hpe]
      cases hfind : (entryCandsKey root e.1).find? ex with
      | some p =>
        simp only [perFileMap, hfind]
        exact perFileMap_drop ex root k hunres rest _
      | none =>
        simp only [perFileMap, hfind]
        exact perFileMap_drop ex root k hunres rest pf

/-- Dropping an unresolved key from the whitelist removes exactly its warnings. -/
theorem warnKeys_drop (ex : String → Bool) (root : String) (k : String)
    (hunres : keyResolves ex root k = false) :
    forall entries : List (String × List String),
      warnKeys ex root (entries.filter (fun e => !(e.1 == k)))
        = (warnKeys ex root entries).filter (fun w => !(w == k))
  | [] => rfl
  | e :: rest => by
    rw [List.filter_cons]
    by_cases hk : (e.1 == k) = true
    · have hke : e.1 = k := eq_of_beq hk
      rw [if_neg (by rw [hk]; simp)]
      rw [show warnKeys ex root (e :: rest) = e.1 :: warnKeys ex root rest by
        rw [warnKeys, if_neg (by rw [hke, hunres]; simp)]]
      rw [List.filter_cons]
      rw [if_neg (by rw [hke]; simp)]
      exact warnKeys_drop ex root k hunres rest
    · have hpe : (!(e.1 == k)) = true := by revert hk; cases (e.1 == k) <;> simp
      rw [if_pos hpe]
      by_cases hr : keyResolves ex root e.1 = true
      · rw [warnKeys, if_pos hr, warnKeys, if_pos hr]
        exact warnKeys_drop ex root k hunres rest
      · rw [warnKeys, if_neg hr, warnKeys, if_neg hr]
        rw [List.filter_cons, if_pos hpe]
        rw [warnKeys_drop ex root k hunres rest]

/-- C8: an FQN resolving to neither candidate path yields exactly one warning
line, contributes nothing to the per-file map, and the resolution loop still
completes (returns `some`) with every other entry processed as usual. -/
theorem syncer_unresolved_fqn_warning (ex : String → Bool) (root : String)
    (entries : List (String × List String)) (fqcn : String) (ms : List String)
    (cps : List String)
    (hmem : (fqcn, ms) ∈ entries)
    (huniq : ((entries.map Prod.fst).count fqcn) = 1)
    (hall : forall e, e ∈ entries → fqcn_to_candidate_paths e.1 root ≠ none)
    (hc : fqcn_to_candidate_paths fqcn root = some cps)
    (hnone : cps.find? ex = none) :
    resolveAll ex root entries
        = some (perFileMap ex root entries [], warnKeys ex root entries)
      ∧ ((warnKeys ex root entries).count fqcn) = 1
      ∧ resolveAll ex root (entries.filter (fun e => !(e.1 == fqcn)))
          = some (perFileMap ex root entries [],
              (warnKeys ex root entries).filter (fun w => !(w == fqcn))) := by
  have hunres : keyResolves ex root fqcn = false := by
    rw [keyResolves, entryCandsKey, hc]
    rw [show (some cps).getD [] = cps from rfl, hnone]
    rfl
  refine ⟨?_, ?_, ?_⟩
  · rw [resolveAll, resolveAllGo_spec ex root entries [] [] hall]
    rw [List.nil_append]
  · have hge : 1 ≤ (warnKeys ex root entries).count fqcn := by
      have hmemw : fqcn ∈ warnKeys ex root entries :=
        mem_warnKeys ex root fqcn ms hunres entries hmem
      have := List.count_pos_iff.mpr hmemw
      omega
    have hle := warnKeys_count_le ex root fqcn entries
    omega
  · rw [resolveAll, resolveAllGo_spec ex root _ [] []
      (fun e he => hall e (List.mem_of_mem_filter he))]
    rw [List.nil_append, perFileMap_drop ex root fqcn hunres entries,
      warnKeys_drop ex root fqcn hunres entries]

/-- Witness for `syncer_unresolved_fqn_warning` on a concrete whitelist where
`b.Bad` resolves to neither candidate and `a.Good` resolves to its `.kt` path. -/
theorem syncer_unresolved_fqn_warning_witness :
    resolveAll c8ex "r" c8entries = some ([("r/a/Good.kt", ["m1"])], ["b.Bad"])
      ∧ ((warnKeys c8ex "r" c8entries).count "b.Bad") = 1
      ∧ resolveAll c8ex "r" [("a.Good", ["m1"])]
          = some ([("r/a/Good.kt", ["m1"])], []) := by
  have h := syncer_unresolved_fqn_warning c8ex "r" c8entries "b.Bad" ["m2"]
    ["r/b/Bad.kt", "r/b/Bad.java"] (by decide) (by decide)
    (by intro e he hn; revert hn; fin_cases he <;> decide) (by decide) (by decide)
  exact ⟨h.1.trans (by decide), h.2.1, h.2.2.trans (by decide)⟩

/-! ## Theorems: the method-pruning transform -/

set_option maxRecDepth 10000

/-- C1: pruning the round-trip scenario file with wanted set `{testA}` keeps
`testA`'s annotation block and full body verbatim, deletes exactly `testB`'s
span from the start of its annotation block through its brace-matched closing
brace, and leaves every other byte of the file (including the `@Before`
method) unchanged. -/
theorem strip_roundtrip_scenario :
    strip_unwanted_tests (c1Pre ++ c1A ++ c1Mid ++ c1B ++ c1Tail) ["testA"] ".kt"
      = c1Pre ++ c1A ++ c1Mid ++ c1Tail := by
  decide

/-- C2 counterexample: the pruning transform is not idempotent for every source
text.  In `c2Src` the deleted method `a`'s closing brace is immediately
followed on the same line by the `@Test` annotation of `b`, so `b` survives
the first run (its annotation is not line-anchored in the original text) but
is deleted by the second. -/
theorem strip_not_idempotent :
    strip_unwanted_tests (strip_unwanted_tests c2Src [] ".kt") [] ".kt"
      ≠ strip_unwanted_tests c2Src [] ".kt" := by
  decide

/-- C2 (amended): re-running the pruning transform is byte-identical on the
spec's round-trip scenario content, where every deleted span's closing brace is
followed by a newline; idempotence fails for general source texts. -/
theorem strip_idempotent_on_roundtrip :
    strip_unwanted_tests (strip_unwanted_tests c1Src ["testA"] ".kt") ["testA"] ".kt"
      = strip_unwanted_tests c1Src ["testA"] ".kt" := by
  decide

end AndroidTools
